import Mathlib

/-!
A verification development for the `picomenu` command-line menu engine
(`src/lib.rs`).  The library reads newline-terminated command lines from a
byte-oriented transport (`IoDevice`), splits each line into a command name and
optional argument string (`parse_line`), dispatches to a registered handler
through a router chain, and writes results back through a bounded output
buffer (`Output`).

Modelling conventions:
* bytes are `Nat`s (values < 256 in all uses);
* the input and output buffers are modelled by their live prefix
  `[0, write_cursor)` together with the fixed capacity — the Rust code never
  reads a byte at or beyond its cursor, so this abstraction is observationally
  faithful; `write_cursor` is the prefix's length;
* the transport (the `IoDevice` trait, implemented externally) is modelled as
  a scripted device following the repository's own `MockIo` test double in
  `tests/menu.rs`: a queue of read results, a queue of scripted write
  outcomes (empty queue = every write succeeds), and a transcript of the
  packets successfully written;
* Rust panics (out-of-range slice indexing) are modelled by the
  `Outcome.panicked` result;
* the generic router chain (`FinalRouter` / `NormalRouter` /
  `CommandHolder`) is modelled as a list of command bindings traversed front
  to back, which is exactly the execution order of the nested wrapper types.
-/

namespace Picomenu

/-- Errors an `IoDevice` may report (`IoDeviceError` in `src/lib.rs`). -/
inductive IoDeviceError where
  | Disconnected
  | BufferOverflow
deriving DecidableEq, Repr

/-- Errors the menu may encounter (`MenuError` in `src/lib.rs`);
`IoErr` is the `Io(IoDeviceError)` variant. -/
inductive MenuError where
  | UnknownCommand
  | IoErr (e : IoDeviceError)
  | Utf8
  | OutputBufferOverflow
  | InputBufferOverflow
deriving DecidableEq, Repr

/-- Result of a computation that may hit a Rust panic (an out-of-range slice
index aborts the program, carrying no state). -/
inductive Outcome (α : Type) where
  | panicked
  | fine (a : α)
deriving DecidableEq, Repr

deriving instance DecidableEq for Except

/-- The scripted transport device, modelled on the repository's `MockIo` test
double (`tests/menu.rs`): `reads` is the queue of scripted read results,
`writeResults` the queue of scripted write outcomes (exhausted queue means
every further write succeeds), `written` the transcript of packets
successfully written. -/
structure IoDevice where
  reads : List (Except IoDeviceError (List Nat))
  writeResults : List (Option IoDeviceError)
  written : List (List Nat)
deriving DecidableEq, Repr

/-- `IoDevice::read_packet` as scripted by `MockIo::read_packet`
(`tests/menu.rs`): an exhausted queue reports `Disconnected`; a queued
payload is delivered only when strictly shorter than the free space `avail`,
otherwise the device reports its `BufferOverflow` condition. -/
def read_packet (d : IoDevice) (avail : Nat) :
    Except IoDeviceError (List Nat) × IoDevice :=
  match d.reads with
  | [] => (.error .Disconnected, d)
  | .error e :: rest => (.error e, { d with reads := rest })
  | .ok bs :: rest =>
    if bs.length < avail then (.ok bs, { d with reads := rest })
    else (.error .BufferOverflow, { d with reads := rest })

/-- `IoDevice::write_packet`: consumes the next scripted write outcome;
on success the packet is appended to the transcript. -/
def write_packet (d : IoDevice) (data : List Nat) :
    Except IoDeviceError Unit × IoDevice :=
  match d.writeResults with
  | [] => (.ok (), { d with written := d.written ++ [data] })
  | none :: rest =>
    (.ok (), { d with writeResults := rest, written := d.written ++ [data] })
  | some e :: rest => (.error e, { d with writeResults := rest })

/-- The menu's output buffer (`output_buffer` + `output_buffer_idx` as carried
by `Output`): `cap` is the byte capacity (`buffer.len()`), `data` the live
prefix `[0, buffer_idx)`. -/
structure OutputBuf where
  cap : Nat
  data : List Nat
deriving DecidableEq, Repr

/-- The output buffer's write cursor (`output_buffer_idx`). -/
def OutputBuf.writeCursor (o : OutputBuf) : Nat := o.data.length

/-- `Output::write_str` (`uWrite` impl, src/lib.rs lines 100-116): append `s`
at the cursor only when both bound checks pass (`start_idx >= len` and
`end_idx >= len` each fail with `OutputBufferOverflow`). -/
def write_str (o : OutputBuf) (s : List Nat) : Except MenuError Unit × OutputBuf :=
  let start_idx := o.writeCursor
  if start_idx ≥ o.cap then (.error .OutputBufferOverflow, o)
  else
    let end_idx := start_idx + s.length
    if end_idx ≥ o.cap then (.error .OutputBufferOverflow, o)
    else (.ok (), { o with data := o.data ++ s })

/-- `Output::flush_buffer`: write the live prefix to the device; only on
success is the cursor reset to 0 (the `?` returns before the reset). -/
def flush_buffer (o : OutputBuf) (d : IoDevice) :
    Except IoDeviceError Unit × OutputBuf × IoDevice :=
  match write_packet d o.data with
  | (.ok _, d) => (.ok (), { o with data := [] }, d)
  | (.error e, d) => (.error e, o, d)

/-- Concatenation of a list of byte fragments. -/
def catBytes : List (List Nat) → List Nat
  | [] => []
  | f :: fs => f ++ catBytes fs

/-- A `ufmt` formatted write: the fragments of the format string and its
arguments are written through `write_str` one at a time, stopping at the
first failure (earlier fragments stay in the buffer). -/
def write_fragments (o : OutputBuf) : List (List Nat) → Except MenuError Unit × OutputBuf
  | [] => (.ok (), o)
  | f :: fs =>
    match write_str o f with
    | (.ok _, o) => write_fragments o fs
    | (.error e, o) => (.error e, o)

/-- The `outwriteln!` macro (src/lib.rs lines 121-128): format the fragments
plus a trailing newline into the buffer; on success flush, mapping a flush
failure to `MenuError::Io`; on formatting failure return without flushing. -/
def outwriteln (o : OutputBuf) (d : IoDevice) (frags : List (List Nat)) :
    Except MenuError Unit × OutputBuf × IoDevice :=
  match write_fragments o (frags ++ [[10]]) with
  | (.ok _, o) =>
    match flush_buffer o d with
    | (.ok _, o, d) => (.ok (), o, d)
    | (.error e, o, d) => (.error (.IoErr e), o, d)
  | (.error e, o) => (.error e, o, d)

/-- ASCII bytes of a string literal. -/
def asciiBytes (s : String) : List Nat := s.data.map Char.toNat

/-- Whether `b` is a UTF-8 continuation byte (`0x80..=0xBF`). -/
def isCont (b : Nat) : Bool := 128 ≤ b && b ≤ 191

/-- Admissible second byte of a three-byte UTF-8 sequence led by `b`
(`0xE0` needs `0xA0..=0xBF`, `0xED` needs `0x80..=0x9F`, the rest a plain
continuation byte). -/
def utf8Second3 (b c : Nat) : Bool :=
  if b = 224 then 160 ≤ c && c ≤ 191
  else if b = 237 then 128 ≤ c && c ≤ 159
  else isCont c

/-- Admissible second byte of a four-byte UTF-8 sequence led by `b`
(`0xF0` needs `0x90..=0xBF`, `0xF4` needs `0x80..=0x8F`, the rest a plain
continuation byte). -/
def utf8Second4 (b c : Nat) : Bool :=
  if b = 240 then 144 ≤ c && c ≤ 191
  else if b = 244 then 128 ≤ c && c ≤ 143
  else isCont c

/-- UTF-8 validity of a byte sequence: the check performed by
`core::str::from_utf8` (shortest-form encodings of scalar values, surrogates
excluded), which `parse_line` applies to each slice. -/
def validUtf8 : List Nat → Bool
  | [] => true
  | b :: rest =>
    if b ≤ 127 then validUtf8 rest
    else if 194 ≤ b && b ≤ 223 then
      match rest with
      | c1 :: r => isCont c1 && validUtf8 r
      | [] => false
    else if 224 ≤ b && b ≤ 239 then
      match rest with
      | c1 :: c2 :: r => utf8Second3 b c1 && isCont c2 && validUtf8 r
      | _ => false
    else if 240 ≤ b && b ≤ 244 then
      match rest with
      | c1 :: c2 :: c3 :: r =>
        utf8Second4 b c1 && isCont c2 && isCont c3 && validUtf8 r
      | _ => false
    else false

/-- `str::from_utf8` on a byte slice: the slice itself when valid, an error
otherwise (the `Utf8Error` details are not used by the menu). -/
def utf8Check (l : List Nat) : Except Unit (List Nat) :=
  if validUtf8 l then .ok l else .error ()

/-- Index of the first space byte, if any (the scan loop of `parse_line`). -/
def findSpace : List Nat → Option Nat
  | [] => none
  | b :: rest => if b = 32 then some 0 else (findSpace rest).map (· + 1)

/-- `parse_line` (src/lib.rs lines 306-326): `space_idx` is the index of the
first space byte, left at its initialisation `0` when there is none; the
line splits into command and arguments only when `space_idx > 0` and at
least one byte follows the space, otherwise the whole line is the command. -/
def parse_line (cmd_string : List Nat) :
    Except Unit (List Nat × Option (List Nat)) :=
  let space_idx := (findSpace cmd_string).getD 0
  let after_space_idx := space_idx + 1
  if space_idx > 0 ∧ after_space_idx < cmd_string.length then
    match utf8Check (cmd_string.take space_idx),
          utf8Check (cmd_string.drop after_space_idx) with
    | .ok cmd, .ok args => .ok (cmd, some args)
    | .error _, _ => .error ()
    | _, .error _ => .error ()
  else
    match utf8Check cmd_string with
    | .ok cmd => .ok (cmd, none)
    | .error _ => .error ()

/-- Bytes of the reserved command name `help`. -/
def helpBytes : List Nat := asciiBytes "help"

/-- Fixed error line written for `UnknownCommand`. -/
def unknownCommandMsg : List Nat := asciiBytes "Unknown command"

/-- Fixed error line written for `Io(BufferOverflow)`. -/
def ioOverflowMsg : List Nat := asciiBytes "IO buffer overflow"

/-- Fixed error line written for `Utf8`. -/
def utf8Msg : List Nat := asciiBytes "Input UTF8 error"

/-- Fixed error line written for `InputBufferOverflow`. -/
def inputOverflowMsg : List Nat := asciiBytes "Input buffer overflowed & dumped"

/-- Text of the help header (`outwriteln!` appends one more newline). -/
def helpHeaderText : List Nat := asciiBytes "AVAILABLE COMMANDS:\n"

/-- `try_print_error` (src/lib.rs lines 328-351): `Disconnected` and
`OutputBufferOverflow` are returned as-is; the three recoverable errors are
converted into a fixed line written through `outwriteln!`. -/
def try_print_error (o : OutputBuf) (d : IoDevice) (e : MenuError) :
    Except MenuError Unit × OutputBuf × IoDevice :=
  match e with
  | .IoErr .Disconnected => (.error e, o, d)
  | .UnknownCommand => outwriteln o d [unknownCommandMsg]
  | .IoErr .BufferOverflow => outwriteln o d [ioOverflowMsg]
  | .Utf8 => outwriteln o d [utf8Msg]
  | .InputBufferOverflow => outwriteln o d [inputOverflowMsg]
  | .OutputBufferOverflow => (.error e, o, d)

/-- One registered command binding: the static `name`, the help string, and
the handler (`Command::execute`), which receives the optional arguments and
may use the output handle (buffer + device) and the shared menu state. -/
structure MenuCmd (S : Type) where
  name : List Nat
  help : List Nat
  exec : Option (List Nat) → OutputBuf → IoDevice → S →
    Except MenuError Unit × OutputBuf × IoDevice × S

/-- The router chain as a list: `[]` is `FinalRouter`, `c :: rest` a
`NormalRouter` holding `c` in front of `rest`. -/
abbrev Router (S : Type) := List (MenuCmd S)

/-- `Router::execute_or_forward` composed with `CommandHolder::try_execute`:
the first binding whose name equals the command runs; the terminal router
yields `UnknownCommand`. -/
def execute_or_forward {S : Type} (r : Router S) (cmd : List Nat)
    (args : Option (List Nat)) (o : OutputBuf) (d : IoDevice) (st : S) :
    Except MenuError Unit × OutputBuf × IoDevice × S :=
  match r with
  | [] => (.error .UnknownCommand, o, d, st)
  | c :: rest =>
    if cmd = c.name then c.exec args o d st
    else execute_or_forward rest cmd args o d st

/-- The `ufmt` fragments of `CommandHolder::print_help`'s format string
`"> {}: {}"` applied to a binding's name and help string. -/
def helpFragments {S : Type} (c : MenuCmd S) : List (List Nat) :=
  [[62, 32], c.name, [58, 32], c.help]

/-- The full line `CommandHolder::print_help` flushes for one binding:
`"> <name>: <help>\n"`. -/
def helpLine {S : Type} (c : MenuCmd S) : List Nat :=
  [62, 32] ++ c.name ++ [58, 32] ++ c.help ++ [10]

/-- `Router::print_help`: each binding's line in chain order, then the next
router; the terminal router writes nothing; an error stops the walk. -/
def print_help {S : Type} : Router S → OutputBuf → IoDevice →
    Except MenuError Unit × OutputBuf × IoDevice
  | [], o, d => (.ok (), o, d)
  | c :: rest, o, d =>
    match outwriteln o d (helpFragments c) with
    | (.ok _, o, d) => print_help rest o d
    | (.error e, o, d) => (.error e, o, d)

/-- `Menu::with_command` (src/lib.rs lines 262-283): the construction-time
assertions (`name != "help"`, no space in the name) panic on violation
(modelled `none`); otherwise the new binding is prepended ahead of the
existing chain. -/
def with_command {S : Type} (r : Router S) (c : MenuCmd S) : Option (Router S) :=
  if c.name = helpBytes then none
  else if 32 ∈ c.name then none
  else some (c :: r)

/-- Splits a byte buffer at its newline bytes: the complete lines (the spans
strictly between consecutive `\n` boundaries, scanned in order exactly as the
`process_lines_in_buffer` loop does) and the unconsumed trailing partial
line. -/
def splitNl : List Nat → List (List Nat) × List Nat
  | [] => ([], [])
  | b :: rest =>
    let (ls, t) := splitNl rest
    if b = 10 then ([] :: ls, t)
    else
      match ls with
      | l :: ls2 => ((b :: l) :: ls2, t)
      | [] => ([], b :: t)

/-- The per-line body of the `process_lines_in_buffer` scan loop, iterated
over the complete lines: parse (a UTF-8 failure aborts the whole call with
`Utf8`), handle the reserved `help` command, otherwise dispatch through the
router, converting a dispatch error into a printed line via
`try_print_error` (whose own failure aborts the call). -/
def processLineList {S : Type} (r : Router S) :
    List (List Nat) → OutputBuf → IoDevice → S →
    Except MenuError Unit × OutputBuf × IoDevice × S
  | [], o, d, st => (.ok (), o, d, st)
  | line :: rest, o, d, st =>
    match parse_line line with
    | .error _ => (.error .Utf8, o, d, st)
    | .ok (cmd, args) =>
      if cmd = helpBytes then
        match outwriteln o d [helpHeaderText] with
        | (.error e, o, d) => (.error e, o, d, st)
        | (.ok _, o, d) =>
          match print_help r o d with
          | (.error e, o, d) => (.error e, o, d, st)
          | (.ok _, o, d) => processLineList r rest o d st
      else
        match execute_or_forward r cmd args o d st with
        | (.ok _, o, d, st) => processLineList r rest o d st
        | (.error e, o, d, st) =>
          match try_print_error o d e with
          | (.ok _, o, d) => processLineList r rest o d st
          | (.error e2, o, d) => (.error e2, o, d, st)

/-- `MenuImpl::process_lines_in_buffer` (src/lib.rs lines 388-440): scan the
buffer's complete lines (an error propagates before any compaction, leaving
the buffer prefix unchanged); afterwards, when `last_line_start_idx` is not
zero, copy the unconsumed tail to the buffer's front — the Rust code indexes
`buffer_head[..last_line_len]` where `buffer_head` has length
`last_line_start_idx`, which panics when the tail is longer than the consumed
prefix. -/
def process_lines_in_buffer {S : Type} (r : Router S) (inBuf : List Nat)
    (o : OutputBuf) (d : IoDevice) (st : S) :
    Outcome (Except MenuError Unit × List Nat × OutputBuf × IoDevice × S) :=
  let (lines, t) := splitNl inBuf
  match processLineList r lines o d st with
  | (.error e, o, d, st) => .fine (.error e, inBuf, o, d, st)
  | (.ok _, o, d, st) =>
    let last_line_start_idx := inBuf.length - t.length
    if last_line_start_idx = 0 then .fine (.ok (), inBuf, o, d, st)
    else
      let last_line_len := t.length
      if last_line_len ≤ last_line_start_idx then .fine (.ok (), t, o, d, st)
      else .panicked

/-- The whole menu state owned by one dispatcher: input buffer capacity and
live prefix, output buffer, device, and caller state (`MenuImpl` minus the
router, which is passed separately since it carries handler functions). -/
structure MenuS (S : Type) where
  inCap : Nat
  inBuf : List Nat
  out : OutputBuf
  dev : IoDevice
  st : S
deriving DecidableEq, Repr

/-- `MenuImpl::read_input` (src/lib.rs lines 354-386): with free space, read
from the device into the tail (a device `BufferOverflow` is remapped to
`InputBufferOverflow`, other device errors to `Io`); with a full buffer, fail
with `InputBufferOverflow` without reading.  A successful read appends the
bytes and processes the buffer; any read error dumps the input buffer
(`input_buffer_idx = 0`) and reports through `try_print_error`. -/
def read_input {S : Type} (r : Router S) (m : MenuS S) :
    Outcome (Except MenuError Unit × MenuS S) :=
  let (read_result, dev) :=
    if m.inBuf.length < m.inCap then
      match read_packet m.dev (m.inCap - m.inBuf.length) with
      | (.ok bs, dev) => (Except.ok bs, dev)
      | (.error .BufferOverflow, dev) =>
        (Except.error MenuError.InputBufferOverflow, dev)
      | (.error e, dev) => (Except.error (MenuError.IoErr e), dev)
    else (Except.error MenuError.InputBufferOverflow, m.dev)
  match read_result with
  | .ok bs =>
    match process_lines_in_buffer r (m.inBuf ++ bs) m.out dev m.st with
    | .panicked => .panicked
    | .fine (res, inBuf, o, d, st) =>
      .fine (res, { m with inBuf := inBuf, out := o, dev := d, st := st })
  | .error e =>
    match try_print_error m.out dev e with
    | (res, o, d) => .fine (res, { m with inBuf := [], out := o, dev := d })

/-- `Menu::run` (src/lib.rs lines 285-293) with explicit fuel (`none` means
the fuel ran out before the loop did): iterate `read_input`; success
continues the loop, `Io(Disconnected)` stops with overall success, any other
error is returned as the loop's final result. -/
def run {S : Type} (r : Router S) : Nat → MenuS S →
    Option (Outcome (Except MenuError Unit × MenuS S))
  | 0, _ => none
  | fuel + 1, m =>
    match read_input r m with
    | .panicked => some .panicked
    | .fine (.ok _, m) => run r fuel m
    | .fine (.error (.IoErr .Disconnected), m) => some (.fine (.ok (), m))
    | .fine (.error e, m) => some (.fine (.error e, m))

/-- `make_menu` (src/lib.rs lines 443-459): both cursors start at 0 and the
router chain is the bare `FinalRouter` (`[]`). -/
def make_menu {S : Type} (d : IoDevice) (st : S) (inCap outCap : Nat) :
    MenuS S :=
  { inCap := inCap, inBuf := [], out := { cap := outCap, data := [] },
    dev := d, st := st }

/-! ### Helper lemmas -/

@[simp]
lemma catBytes_nil : catBytes [] = [] := rfl

@[simp]
lemma catBytes_cons (f : List Nat) (fs : List (List Nat)) :
    catBytes (f :: fs) = f ++ catBytes fs := rfl

lemma catBytes_append (a b : List (List Nat)) :
    catBytes (a ++ b) = catBytes a ++ catBytes b := by
  induction a with
  | nil => simp
  | cons f fs ih => simp [ih]

lemma take_len_append (a b : List Nat) : (a ++ b).take a.length = a := by
  induction a with
  | nil => simp
  | cons x xs ih => simp [ih]

lemma drop_len_append (a b : List Nat) : (a ++ b).drop a.length = b := by
  induction a with
  | nil => simp
  | cons x xs ih => simp [ih]

lemma write_str_ok (o : OutputBuf) (s : List Nat)
    (h : o.writeCursor + s.length < o.cap) :
    write_str o s = (.ok (), { o with data := o.data ++ s }) := by
  have h1 : ¬ o.data.length ≥ o.cap := by
    simp only [OutputBuf.writeCursor] at h; omega
  have h2 : ¬ o.data.length + s.length ≥ o.cap := by
    simp only [OutputBuf.writeCursor] at h; omega
  simp [write_str, OutputBuf.writeCursor, h1, h2]

lemma write_str_overflow (o : OutputBuf) (s : List Nat)
    (h : o.cap ≤ o.writeCursor + s.length) :
    write_str o s = (.error .OutputBufferOverflow, o) := by
  simp only [OutputBuf.writeCursor] at h
  by_cases h1 : o.data.length ≥ o.cap
  · simp [write_str, OutputBuf.writeCursor, h1]
  · have h2 : o.data.length + s.length ≥ o.cap := by omega
    simp [write_str, OutputBuf.writeCursor, h1, h2]

lemma write_fragments_ok (frags : List (List Nat)) : ∀ (o : OutputBuf),
    o.writeCursor + (catBytes frags).length < o.cap →
    write_fragments o frags = (.ok (), { o with data := o.data ++ catBytes frags }) := by
  induction frags with
  | nil => intro o h; simp [write_fragments]
  | cons f fs ih =>
    intro o h
    simp only [OutputBuf.writeCursor, catBytes_cons, List.length_append] at h
    have hf : o.writeCursor + f.length < o.cap := by
      simp only [OutputBuf.writeCursor]; omega
    have h2 : ({ o with data := o.data ++ f } : OutputBuf).writeCursor
        + (catBytes fs).length < o.cap := by
      simp only [OutputBuf.writeCursor, List.length_append]; omega
    simp [write_fragments, write_str_ok o f hf, ih _ h2]

lemma flush_buffer_script_nil (o : OutputBuf) (d : IoDevice)
    (h : d.writeResults = []) :
    flush_buffer o d
      = (.ok (), { o with data := [] }, { d with written := d.written ++ [o.data] }) := by
  simp [flush_buffer, write_packet, h]

lemma flush_buffer_script_err (o : OutputBuf) (d : IoDevice) (e : IoDeviceError)
    (rest : List (Option IoDeviceError)) (h : d.writeResults = some e :: rest) :
    flush_buffer o d = (.error e, o, { d with writeResults := rest }) := by
  simp [flush_buffer, write_packet, h]

lemma outwriteln_ok (o : OutputBuf) (d : IoDevice) (frags : List (List Nat))
    (hcap : o.writeCursor + (catBytes frags).length + 1 < o.cap)
    (hw : d.writeResults = []) :
    outwriteln o d frags = (.ok (), { o with data := [] },
      { d with written := d.written ++ [o.data ++ (catBytes frags ++ [10])] }) := by
  have h1 : o.writeCursor + (catBytes (frags ++ [[10]])).length < o.cap := by
    rw [catBytes_append]
    simp only [OutputBuf.writeCursor, List.length_append] at hcap ⊢
    simp [catBytes]; omega
  have h2 := write_fragments_ok (frags ++ [[10]]) o h1
  rw [catBytes_append] at h2
  simp only [catBytes_cons, catBytes_nil, List.append_nil] at h2
  simp [outwriteln, h2, flush_buffer_script_nil _ _ hw]

lemma print_help_ok {S : Type} : ∀ (r : Router S) (o : OutputBuf) (d : IoDevice),
    o.data = [] → d.writeResults = [] →
    (∀ c ∈ r, c.name.length + c.help.length + 5 < o.cap) →
    print_help r o d = (.ok (), { o with data := [] },
      { d with written := d.written ++ r.map helpLine }) := by
  intro r
  induction r with
  | nil =>
    intro o d h1 h2 h3
    obtain ⟨cap, data⟩ := o
    simp at h1
    subst h1
    simp [print_help]
  | cons c rest ih =>
    intro o d h1 h2 h3
    have hc : c.name.length + c.help.length + 5 < o.cap := h3 c (by simp)
    have hcap : o.writeCursor + (catBytes (helpFragments c)).length + 1 < o.cap := by
      simp only [OutputBuf.writeCursor, h1, helpFragments, catBytes_cons, catBytes_nil,
        List.append_nil, List.length_nil, List.length_append, List.length_cons]
      simp; omega
    have hout := outwriteln_ok o d (helpFragments c) hcap h2
    have hpkt : o.data ++ (catBytes (helpFragments c) ++ [10]) = helpLine c := by
      simp [h1, helpFragments, helpLine, catBytes]
    rw [hpkt] at hout
    have hrec := ih { o with data := [] }
      { d with written := d.written ++ [helpLine c] } rfl h2
      (by intro x hx; exact h3 x (by simp [hx]))
    simp [print_help, hout, hrec]


lemma findSpace_none : ∀ (s : List Nat), 32 ∉ s → findSpace s = none := by
  intro s
  induction s with
  | nil => intro _; rfl
  | cons b rest ih =>
    intro h
    simp only [List.mem_cons, not_or] at h
    have hb : ¬ b = 32 := fun e => h.1 e.symm
    simp [findSpace, hb, ih h.2]

lemma findSpace_append (cmd rest : List Nat) (h : 32 ∉ cmd) :
    findSpace (cmd ++ 32 :: rest) = some cmd.length := by
  induction cmd with
  | nil => simp [findSpace]
  | cons b bs ih =>
    simp only [List.mem_cons, not_or] at h
    have hb : ¬ b = 32 := fun e => h.1 e.symm
    simp [findSpace, hb, ih h.2]

lemma parse_line_no_space (s : List Nat) (h : 32 ∉ s)
    (hv : validUtf8 s = true) : parse_line s = .ok (s, none) := by
  simp [parse_line, findSpace_none s h, utf8Check, hv]

lemma parse_line_split (cmd rest : List Nat) (h0 : cmd ≠ []) (h : 32 ∉ cmd)
    (hr : rest ≠ []) (hv1 : validUtf8 cmd = true) (hv2 : validUtf8 rest = true) :
    parse_line (cmd ++ 32 :: rest) = .ok (cmd, some rest) := by
  have hcond : cmd.length > 0 ∧ cmd.length + 1 < (cmd ++ 32 :: rest).length := by
    constructor
    · cases cmd with
      | nil => exact absurd rfl h0
      | cons x xs => simp
    · cases rest with
      | nil => exact absurd rfl hr
      | cons y ys => simp only [List.length_append, List.length_cons]; omega
  have htake : (cmd ++ 32 :: rest).take cmd.length = cmd := take_len_append cmd _
  have hdrop : (cmd ++ 32 :: rest).drop (cmd.length + 1) = rest := by
    have he : cmd ++ 32 :: rest = (cmd ++ [32]) ++ rest := by simp
    have hl : (cmd ++ [32]).length = cmd.length + 1 := by simp
    rw [he, ← hl, drop_len_append]
  simp only [parse_line, findSpace_append cmd rest h, Option.getD_some]
  rw [if_pos hcond, htake, hdrop]
  simp [utf8Check, hv1, hv2]

lemma parse_line_leading_space (t : List Nat) (hv : validUtf8 (32 :: t) = true) :
    parse_line (32 :: t) = .ok (32 :: t, none) := by
  simp [parse_line, findSpace, utf8Check, hv]

/-! ### Claims -/

/-- C4: for every output-buffer state and every string `s`, `write_str`
appends the bytes of `s` at the write cursor and advances the cursor by
`s.length` exactly when `writeCursor + s.length < cap` (strict inequality);
otherwise it returns `OutputBufferOverflow` and leaves both the buffer
contents and the cursor exactly as they were before the call. -/
theorem c4_write_str_contract : ∀ (o : OutputBuf) (s : List Nat),
    (o.writeCursor + s.length < o.cap →
      write_str o s = (.ok (), { o with data := o.data ++ s })
        ∧ ({ o with data := o.data ++ s } : OutputBuf).writeCursor
            = o.writeCursor + s.length)
    ∧ (¬ o.writeCursor + s.length < o.cap →
      write_str o s = (.error .OutputBufferOverflow, o)) := by
  intro o s
  refine ⟨fun h => ⟨write_str_ok o s h, ?_⟩, fun h => ?_⟩
  · simp [OutputBuf.writeCursor]
  · exact write_str_overflow o s (by omega)

/-- C4 witness: the contract evaluated at concrete states, an in-bounds
write and an overflowing one. -/
theorem c4_write_str_contract_witness :
    write_str ⟨4, [1]⟩ [7, 8] = (.ok (), ⟨4, [1, 7, 8]⟩)
      ∧ write_str ⟨3, [1]⟩ [7, 8] = (.error .OutputBufferOverflow, ⟨3, [1]⟩) :=
  ⟨((c4_write_str_contract ⟨4, [1]⟩ [7, 8]).1 (by decide)).1,
    (c4_write_str_contract ⟨3, [1]⟩ [7, 8]).2 (by decide)⟩

/-- C5 counterexample: the claim's conditions on `"a b x"` hold (the command
part `"a b"` is non-empty and does not start with a space, the rest `"x"` is
non-empty), yet `parse_line` splits at the first space inside `"a b"` and
returns `("a", Some "b x")`, not `("a b", Some "x")`; moreover a spaceless
byte string that is not UTF-8 is rejected rather than returned as the
command. -/
theorem c5_counterexample :
    asciiBytes "a b" ≠ [] ∧ (asciiBytes "a b").head? ≠ some 32
      ∧ asciiBytes "x" ≠ []
      ∧ parse_line (asciiBytes "a b" ++ 32 :: asciiBytes "x")
          = .ok (asciiBytes "a", some (asciiBytes "b x"))
      ∧ (Except.ok (asciiBytes "a", some (asciiBytes "b x"))
          : Except Unit (List Nat × Option (List Nat)))
          ≠ .ok (asciiBytes "a b", some (asciiBytes "x"))
      ∧ 32 ∉ [255] ∧ parse_line [255] = .error () := by
  decide

/-- C5 (amended): for any UTF-8-valid byte string with no space byte,
`parse_line` returns the whole string as the command with no arguments; for
`cmd ++ ' ' ++ rest` with `cmd` non-empty and containing no space and `rest`
non-empty (both UTF-8 valid), it returns `(cmd, some rest)` exactly, even
when `rest` contains further spaces; and a line whose first byte is a space
is parsed as a single command equal to the whole line, not as an empty
command. -/
theorem c5_parse_line :
    (∀ s : List Nat, 32 ∉ s → validUtf8 s = true → parse_line s = .ok (s, none))
    ∧ (∀ cmd rest : List Nat, cmd ≠ [] → 32 ∉ cmd → rest ≠ [] →
        validUtf8 cmd = true → validUtf8 rest = true →
        parse_line (cmd ++ 32 :: rest) = .ok (cmd, some rest))
    ∧ (∀ t : List Nat, validUtf8 (32 :: t) = true →
        parse_line (32 :: t) = .ok (32 :: t, none)) :=
  ⟨parse_line_no_space, parse_line_split, parse_line_leading_space⟩

/-- C5 witness: the amended statement evaluated at the repository's own test
strings `"mycommand"`, `"mycommand random args"`, and at `" cmd"`. -/
theorem c5_parse_line_witness :
    parse_line (asciiBytes "mycommand") = .ok (asciiBytes "mycommand", none)
      ∧ parse_line (asciiBytes "mycommand" ++ 32 :: asciiBytes "random args")
          = .ok (asciiBytes "mycommand", some (asciiBytes "random args"))
      ∧ parse_line (32 :: asciiBytes "cmd")
          = .ok (32 :: asciiBytes "cmd", none) :=
  ⟨c5_parse_line.1 (asciiBytes "mycommand") (by decide) (by decide),
    c5_parse_line.2.1 (asciiBytes "mycommand") (asciiBytes "random args")
      (by decide) (by decide) (by decide) (by decide) (by decide),
    c5_parse_line.2.2 (asciiBytes "cmd") (by decide)⟩

/-- C9 counterexample: `make_menu` accepts a zero-capacity output buffer, and
in the initial state it produces the invariant `writeCursor < cap` already
fails (`0 < 0` is false). -/
theorem c9_counterexample :
    ¬ ((make_menu (⟨[], [], []⟩ : IoDevice) () 4 0).out.writeCursor
        < (make_menu (⟨[], [], []⟩ : IoDevice) () 4 0).out.cap) := by
  decide

/-- C9 (amended): for every menu built by `make_menu` over a positive-capacity
output buffer the invariant `writeCursor < cap` holds initially, and it is
preserved by every `write_str` and every `flush_buffer`, for every sequence
of operations. -/
theorem c9_output_invariant :
    (∀ (S : Type) (d : IoDevice) (st : S) (inCap outCap : Nat), 0 < outCap →
      (make_menu d st inCap outCap).out.writeCursor
        < (make_menu d st inCap outCap).out.cap)
    ∧ (∀ (o : OutputBuf) (s : List Nat), o.writeCursor < o.cap →
      (write_str o s).2.writeCursor < (write_str o s).2.cap)
    ∧ (∀ (o : OutputBuf) (d : IoDevice), o.writeCursor < o.cap →
      (flush_buffer o d).2.1.writeCursor < (flush_buffer o d).2.1.cap) := by
  refine ⟨fun S d st inCap outCap h => ?_, fun o s h => ?_, fun o d h => ?_⟩
  · simpa [make_menu, OutputBuf.writeCursor] using h
  · by_cases hlt : o.writeCursor + s.length < o.cap
    · rw [write_str_ok o s hlt]
      simp only [OutputBuf.writeCursor, List.length_append] at hlt ⊢
      omega
    · rw [write_str_overflow o s (by omega)]
      exact h
  · unfold flush_buffer
    rcases hw : write_packet d o.data with ⟨res, d2⟩
    cases res with
    | ok _ =>
      simp only [OutputBuf.writeCursor] at h ⊢
      simp
      omega
    | error e => exact h

/-- C9 witness: the amended invariant evaluated at a concrete fresh menu, a
concrete write, and a concrete flush. -/
theorem c9_output_invariant_witness :
    (make_menu (⟨[], [], []⟩ : IoDevice) () 4 8).out.writeCursor
        < (make_menu (⟨[], [], []⟩ : IoDevice) () 4 8).out.cap
      ∧ (write_str ⟨8, [1, 2]⟩ [3]).2.writeCursor < (write_str ⟨8, [1, 2]⟩ [3]).2.cap
      ∧ (flush_buffer ⟨8, [1, 2]⟩ ⟨[], [], []⟩).2.1.writeCursor
          < (flush_buffer ⟨8, [1, 2]⟩ ⟨[], [], []⟩).2.1.cap :=
  ⟨c9_output_invariant.1 Unit ⟨[], [], []⟩ () 4 8 (by decide),
    c9_output_invariant.2.1 ⟨8, [1, 2]⟩ [3] (by decide),
    c9_output_invariant.2.2 ⟨8, [1, 2]⟩ ⟨[], [], []⟩ (by decide)⟩

/-- C10: when `flush_buffer`'s underlying transport write fails, the error is
returned (and reaches `MenuError` consumers wrapped as `Io` through the
`outwriteln!` path) and the write cursor is left unchanged — the buffered
bytes are retained for a later retry; the cursor is reset to 0 only when the
transport write succeeds. -/
theorem c10_flush_buffer : ∀ (o : OutputBuf) (d : IoDevice) (e : IoDeviceError)
    (rest : List (Option IoDeviceError)) (frags : List (List Nat)),
    (d.writeResults = some e :: rest →
      flush_buffer o d = (.error e, o, { d with writeResults := rest }))
    ∧ (d.writeResults = none :: rest →
      flush_buffer o d = (.ok (), { o with data := [] },
        { d with writeResults := rest, written := d.written ++ [o.data] }))
    ∧ (d.writeResults = [] →
      flush_buffer o d = (.ok (), { o with data := [] },
        { d with written := d.written ++ [o.data] }))
    ∧ (d.writeResults = some e :: rest →
        o.writeCursor + (catBytes frags).length + 1 < o.cap →
      outwriteln o d frags = (.error (.IoErr e),
        ⟨o.cap, o.data ++ (catBytes frags ++ [10])⟩,
        { d with writeResults := rest })) := by
  intro o d e rest frags
  refine ⟨fun h => flush_buffer_script_err o d e rest h,
    fun h => by simp [flush_buffer, write_packet, h],
    fun h => flush_buffer_script_nil o d h,
    fun h hcap => ?_⟩
  have h1 : o.writeCursor + (catBytes (frags ++ [[10]])).length < o.cap := by
    rw [catBytes_append]
    simp only [OutputBuf.writeCursor, List.length_append] at hcap ⊢
    simp [catBytes]; omega
  have h2 := write_fragments_ok (frags ++ [[10]]) o h1
  rw [catBytes_append] at h2
  simp only [catBytes_cons, catBytes_nil, List.append_nil] at h2
  have h3 := flush_buffer_script_err
    { o with data := o.data ++ (catBytes frags ++ [10]) } d e rest h
  simp [outwriteln, h2, h3]

/-- C10 witness: a failing flush retains the buffered bytes and script
position, a succeeding flush resets the cursor, and a failing flush inside
`outwriteln` surfaces as a wrapped `Io` error. -/
theorem c10_flush_buffer_witness :
    flush_buffer ⟨8, [1, 2]⟩ ⟨[], [some .Disconnected], []⟩
        = (.error .Disconnected, ⟨8, [1, 2]⟩, ⟨[], [], []⟩)
      ∧ flush_buffer ⟨8, [1, 2]⟩ ⟨[], [], []⟩ = (.ok (), ⟨8, []⟩, ⟨[], [], [[1, 2]]⟩)
      ∧ outwriteln ⟨8, []⟩ ⟨[], [some .Disconnected], []⟩ [[5]]
          = (.error (.IoErr .Disconnected), ⟨8, [5, 10]⟩, ⟨[], [], []⟩) := by
  refine ⟨?_, ?_, ?_⟩
  · exact (c10_flush_buffer ⟨8, [1, 2]⟩ ⟨[], [some .Disconnected], []⟩
      .Disconnected [] []).1 rfl
  · exact (c10_flush_buffer ⟨8, [1, 2]⟩ ⟨[], [], []⟩ .Disconnected [] []).2.2.1 rfl
  · exact (c10_flush_buffer ⟨8, []⟩ ⟨[], [some .Disconnected], []⟩
      .Disconnected [] [[5]]).2.2.2 rfl (by decide)

/-- Scenario for C2: the empty router and a fresh device. -/
def c2Dev : IoDevice := ⟨[], [], []⟩

/-- C2 (code bug): on the buffer `"a\nbbbbbb"` — one complete line followed
by a 6-byte unconsumed tail — the compaction step panics: the code indexes
`buffer_head[..last_line_len]` with `last_line_len = 6` into the head slice
of length `last_line_start_idx = 2`.  The second conjunct shows the normal
case the claim describes: after `"test\n"` the buffer is emptied (the
consumed prefix is dropped, `write_cursor` becomes the tail's length 0). -/
theorem c2_compaction_panics :
    process_lines_in_buffer ([] : Router Unit) (asciiBytes "a\nbbbbbb")
        ⟨32, []⟩ c2Dev () = .panicked
      ∧ process_lines_in_buffer ([] : Router Unit) (asciiBytes "test\n")
          ⟨32, []⟩ c2Dev ()
        = .fine (.ok (), [], ⟨32, []⟩,
            ⟨[], [], [unknownCommandMsg ++ [10]]⟩, ()) :=
  ⟨rfl, rfl⟩

/-- Dispatch record for C7: each handled command appends its
`(name, arguments)` pair to the menu state. -/
def c7Rec (n : String) : MenuCmd (List (List Nat × Option (List Nat))) :=
  ⟨asciiBytes n, [], fun args o d st => (.ok (), o, d, st ++ [(asciiBytes n, args)])⟩

/-- Router for C7: recorders for `"ab"` and `"cdefgh"`. -/
def c7R : Router (List (List Nat × Option (List Nat))) :=
  [c7Rec "ab", c7Rec "cdefgh"]

/-- Menu for C7 over a given read script (input capacity 16, output 64). -/
def c7Menu (reads : List (Except IoDeviceError (List Nat))) :
    MenuS (List (List Nat × Option (List Nat))) :=
  make_menu ⟨reads, [], []⟩ [] 16 64

/-- C7 (code bug): the stream `"ab\ncdefgh\n"` delivered in a single read
dispatches `("ab", none)` then `("cdefgh", none)` and the loop ends cleanly
on disconnect; the same stream split at the byte boundary after `"cdefgh"`
panics during compaction of the first read (tail `"cdefgh"` is longer than
the consumed prefix `"ab\n"`), so the two splittings do not produce the same
dispatched sequence. -/
theorem c7_fragmentation_broken :
    run c7R 2 (c7Menu [.ok (asciiBytes "ab\ncdefgh\n")])
      = some (.fine (.ok (), ⟨16, [], ⟨64, []⟩, ⟨[], [], []⟩,
          [(asciiBytes "ab", none), (asciiBytes "cdefgh", none)]⟩))
    ∧ run c7R 3 (c7Menu [.ok (asciiBytes "ab\ncdefgh"), .ok (asciiBytes "\n")])
        = some .panicked :=
  ⟨rfl, rfl⟩

/-- Router for C3: the single command `test` with help text `Tests stuff`,
as in the repository's own test suite. -/
def c3R : Router Unit :=
  [⟨asciiBytes "test", asciiBytes "Tests stuff", fun _ o d st => (.ok (), o, d, st)⟩]

/-- C3 counterexample: invoking `help` emits the header and then the line
`"> test: Tests stuff\n"` — with a `"> "` prefix (from the format string
`"> {}: {}"`), not the bare `"test: Tests stuff\n"` the claim states. -/
theorem c3_counterexample :
    process_lines_in_buffer c3R (asciiBytes "help\n") ⟨64, []⟩ ⟨[], [], []⟩ ()
      = .fine (.ok (), [], ⟨64, []⟩,
          ⟨[], [], [asciiBytes "AVAILABLE COMMANDS:\n\n",
            asciiBytes "> test: Tests stuff\n"]⟩, ())
    ∧ asciiBytes "> test: Tests stuff\n" ≠ asciiBytes "test: Tests stuff\n" :=
  ⟨rfl, by decide⟩

/-- Processing the single buffered line `help` emits the header packet
`"AVAILABLE COMMANDS:\n\n"` and then one `helpLine` packet per registered
command, in chain order, and empties the input buffer. -/
lemma help_line_processing {S : Type} (r : Router S) (ocap : Nat)
    (dev : IoDevice) (st : S) (hw : dev.writeResults = []) (hcap : 21 < ocap)
    (hfit : ∀ c ∈ r, c.name.length + c.help.length + 5 < ocap) :
    process_lines_in_buffer r (asciiBytes "help\n") ⟨ocap, []⟩ dev st
      = .fine (.ok (), [], ⟨ocap, []⟩,
          { dev with written :=
              dev.written ++ (helpHeaderText ++ [10]) :: r.map helpLine }, st) := by
  have hb : asciiBytes "help\n" = [104, 101, 108, 112, 10] := rfl
  have hsplit : splitNl [104, 101, 108, 112, 10] = ([[104, 101, 108, 112]], []) := rfl
  have hparse : parse_line [104, 101, 108, 112] = .ok (helpBytes, none) := by decide
  have hhdr := outwriteln_ok ⟨ocap, []⟩ dev [helpHeaderText]
    (by simp [OutputBuf.writeCursor, catBytes, helpHeaderText, asciiBytes]; omega) hw
  simp only [catBytes_cons, catBytes_nil, List.append_nil, List.nil_append] at hhdr
  have hph := print_help_ok r ⟨ocap, []⟩
    { dev with written := dev.written ++ [helpHeaderText ++ [10]] } rfl hw hfit
  rw [hb]
  simp [process_lines_in_buffer, hsplit, processLineList, hparse, hhdr, hph,
    List.append_assoc]

/-- C3 (amended): invoking the reserved command `help` emits the header
`"AVAILABLE COMMANDS:\n\n"` followed by, for every registered command,
exactly one line whose bytes are `"> <name>: <help text>\n"` (the `"> "`
prefix comes from the `"> {}: {}"` format string). -/
theorem c3_help_listing : ∀ (S : Type) (r : Router S) (ocap : Nat)
    (dev : IoDevice) (st : S),
    dev.writeResults = [] → 21 < ocap →
    (∀ c ∈ r, c.name.length + c.help.length + 5 < ocap) →
    process_lines_in_buffer r (asciiBytes "help\n") ⟨ocap, []⟩ dev st
      = .fine (.ok (), [], ⟨ocap, []⟩,
          { dev with written :=
              dev.written ++ (helpHeaderText ++ [10]) :: r.map helpLine }, st) :=
  fun _ r ocap dev st hw hcap hfit => help_line_processing r ocap dev st hw hcap hfit

/-- C3 witness: the amended listing evaluated on the single registered
command `test`, reproducing the repository's `prints_help` test output. -/
theorem c3_help_listing_witness :
    process_lines_in_buffer c3R (asciiBytes "help\n") ⟨64, []⟩ ⟨[], [], []⟩ ()
      = .fine (.ok (), [], ⟨64, []⟩,
          ⟨[], [], (helpHeaderText ++ [10]) :: c3R.map helpLine⟩, ()) :=
  c3_help_listing Unit c3R 64 ⟨[], [], []⟩ () rfl (by decide) (by decide)

/-- C8: registering commands A, B, C in that order — each `with_command`
prepending its binding ahead of the existing chain — produces the chain
`[C, B, A]`, and invoking `help` lists C first, then B, then A. -/
theorem c8_help_reverse_order : ∀ (S : Type) (a b c : MenuCmd S) (ocap : Nat)
    (dev : IoDevice) (st : S),
    a.name ≠ helpBytes → 32 ∉ a.name →
    b.name ≠ helpBytes → 32 ∉ b.name →
    c.name ≠ helpBytes → 32 ∉ c.name →
    dev.writeResults = [] → 21 < ocap →
    a.name.length + a.help.length + 5 < ocap →
    b.name.length + b.help.length + 5 < ocap →
    c.name.length + c.help.length + 5 < ocap →
    with_command [] a = some [a]
    ∧ with_command [a] b = some [b, a]
    ∧ with_command [b, a] c = some [c, b, a]
    ∧ process_lines_in_buffer [c, b, a] (asciiBytes "help\n") ⟨ocap, []⟩ dev st
        = .fine (.ok (), [], ⟨ocap, []⟩,
            { dev with written := dev.written ++
                [helpHeaderText ++ [10], helpLine c, helpLine b, helpLine a] },
            st) := by
  intro S a b c ocap dev st ha1 ha2 hb1 hb2 hc1 hc2 hw hcap hfa hfb hfc
  have hfit : ∀ x ∈ ([c, b, a] : Router S),
      x.name.length + x.help.length + 5 < ocap := by
    intro x hx
    simp only [List.mem_cons, List.not_mem_nil, or_false] at hx
    rcases hx with rfl | rfl | rfl
    · exact hfc
    · exact hfb
    · exact hfa
  refine ⟨by simp [with_command, ha1, ha2], by simp [with_command, hb1, hb2],
    by simp [with_command, hc1, hc2], ?_⟩
  have h := help_line_processing [c, b, a] ocap dev st hw hcap hfit
  simpa using h

/-- Commands for the C8 witness. -/
def c8A : MenuCmd Unit := ⟨asciiBytes "alpha", asciiBytes "A", fun _ o d st => (.ok (), o, d, st)⟩

/-- Commands for the C8 witness. -/
def c8B : MenuCmd Unit := ⟨asciiBytes "beta", asciiBytes "B", fun _ o d st => (.ok (), o, d, st)⟩

/-- Commands for the C8 witness. -/
def c8C : MenuCmd Unit := ⟨asciiBytes "gamma", asciiBytes "C", fun _ o d st => (.ok (), o, d, st)⟩

/-- C8 witness: registering `alpha`, `beta`, `gamma` in that order and
invoking `help` lists `gamma`, `beta`, `alpha`. -/
theorem c8_help_reverse_order_witness :
    with_command [] c8A = some [c8A]
    ∧ with_command [c8A] c8B = some [c8B, c8A]
    ∧ with_command [c8B, c8A] c8C = some [c8C, c8B, c8A]
    ∧ process_lines_in_buffer [c8C, c8B, c8A] (asciiBytes "help\n") ⟨64, []⟩
        ⟨[], [], []⟩ ()
      = .fine (.ok (), [], ⟨64, []⟩,
          ⟨[], [], [helpHeaderText ++ [10], helpLine c8C, helpLine c8B,
            helpLine c8A]⟩, ()) :=
  c8_help_reverse_order Unit c8A c8B c8C 64 ⟨[], [], []⟩ ()
    (by decide) (by decide) (by decide) (by decide) (by decide) (by decide)
    rfl (by decide) (by decide) (by decide) (by decide)

/-- Menu for C1: the single read delivers the invalid-UTF-8 line
`[0xFF, '\n']`. -/
def c1Menu : MenuS Unit := make_menu ⟨[.ok [255, 10]], [], []⟩ () 16 64

/-- C1 counterexample: feeding the buffered line `[0xFF]` (invalid UTF-8)
makes the run loop terminate with `Utf8` as its final result — it does not
stay running — and nothing at all is written through the output sink (in
particular not `"Input UTF8 error\n"`). -/
theorem c1_counterexample :
    run ([] : Router Unit) 1 c1Menu
      = some (.fine (.error .Utf8, ⟨16, [255, 10], ⟨64, []⟩, ⟨[], [], []⟩, ()⟩))
    ∧ (⟨16, [255, 10], ⟨64, []⟩, ⟨[], [], []⟩, ()⟩ : MenuS Unit).dev.written = [] :=
  ⟨rfl, rfl⟩

/-- C1 (amended): when the first buffered line fails UTF-8 validation, the
`?` on `parse_line` propagates `Utf8` out of `process_lines_in_buffer` and
`read_input` before any compaction or error reporting, and the run loop
returns `Err(Utf8)` as its final result; nothing is written through the
output sink on this path (the `"Input UTF8 error\n"` arm of
`try_print_error` is not reached from here). -/
theorem c1_utf8_aborts_run : ∀ (S : Type) (r : Router S) (m : MenuS S)
    (bs l t : List Nat) (ls : List (List Nat))
    (rest : List (Except IoDeviceError (List Nat))) (fuel : Nat),
    m.dev.reads = .ok bs :: rest →
    m.inBuf.length < m.inCap →
    bs.length < m.inCap - m.inBuf.length →
    splitNl (m.inBuf ++ bs) = (l :: ls, t) →
    parse_line l = .error () →
    run r (fuel + 1) m
      = some (.fine (.error .Utf8,
          { m with inBuf := m.inBuf ++ bs, dev := { m.dev with reads := rest } }))
    ∧ ({ m with inBuf := m.inBuf ++ bs,
                dev := { m.dev with reads := rest } } : MenuS S).dev.written
        = m.dev.written := by
  intro S r m bs l t ls rest fuel hreads hspace hfit hsplit hparse
  refine ⟨?_, rfl⟩
  have hread : read_input r m = .fine (.error .Utf8,
      { m with inBuf := m.inBuf ++ bs, dev := { m.dev with reads := rest } }) := by
    unfold read_input read_packet
    simp only [hreads, hspace, if_true, hfit, process_lines_in_buffer, hsplit,
      processLineList, hparse]
  simp [run, hread]

/-- C1 witness: the amended statement evaluated on the concrete read
`[0xFF, '\n']`. -/
theorem c1_utf8_aborts_run_witness :
    run ([] : Router Unit) 1 c1Menu
      = some (.fine (.error .Utf8,
          { c1Menu with inBuf := c1Menu.inBuf ++ [255, 10],
                        dev := { c1Menu.dev with reads := [] } }))
    ∧ ({ c1Menu with inBuf := c1Menu.inBuf ++ [255, 10],
                     dev := { c1Menu.dev with reads := [] } } : MenuS Unit).dev.written
        = c1Menu.dev.written :=
  c1_utf8_aborts_run Unit [] c1Menu [255, 10] [255] [] [] [] 0
    rfl (by decide) (by decide) (by decide) (by decide)

/-- The `test` command of the repository's test suite, for the C6 scenario:
it writes `"Testing 123!\n"` directly through `Output::write`. -/
def c6TestCmd : MenuCmd Unit :=
  ⟨asciiBytes "test", asciiBytes "Tests stuff", fun _ o d st =>
    match write_packet d (asciiBytes "Testing 123!\n") with
    | (.ok _, d) => (.ok (), o, d, st)
    | (.error e, d) => (.error (.IoErr e), o, d, st)⟩

/-- Router for C6. -/
def c6R : Router Unit := [c6TestCmd]

/-- Menu for C6: the first read reports the device's `BufferOverflow`
condition, the next delivers `"test\n"`. -/
def c6Menu : MenuS Unit :=
  make_menu ⟨[.error .BufferOverflow, .ok (asciiBytes "test\n")], [], []⟩ () 32 64

/-- C6: entering `read_input` with a full input buffer (no read is attempted:
the device's read queue is untouched), or with the transport read reporting
`BufferOverflow`, empties the input buffer, emits exactly
`"Input buffer overflowed & dumped\n"`, and returns success so the run loop
continues; concretely, after an overflowing read the next valid line
`"test\n"` is processed normally. -/
theorem c6_input_overflow :
    (∀ (S : Type) (r : Router S) (m : MenuS S),
      ¬ m.inBuf.length < m.inCap → m.out.data = [] →
      m.dev.writeResults = [] → inputOverflowMsg.length + 1 < m.out.cap →
      read_input r m = .fine (.ok (), { m with
        inBuf := [],
        out := ⟨m.out.cap, []⟩,
        dev := { m.dev with
          written := m.dev.written ++ [inputOverflowMsg ++ [10]] } }))
    ∧ (∀ (S : Type) (r : Router S) (m : MenuS S)
        (rest : List (Except IoDeviceError (List Nat))),
      m.inBuf.length < m.inCap → m.dev.reads = .error .BufferOverflow :: rest →
      m.out.data = [] → m.dev.writeResults = [] →
      inputOverflowMsg.length + 1 < m.out.cap →
      read_input r m = .fine (.ok (), { m with
        inBuf := [],
        out := ⟨m.out.cap, []⟩,
        dev := { m.dev with
          reads := rest,
          written := m.dev.written ++ [inputOverflowMsg ++ [10]] } }))
    ∧ run c6R 3 c6Menu
        = some (.fine (.ok (), ⟨32, [], ⟨64, []⟩,
            ⟨[], [], [inputOverflowMsg ++ [10], asciiBytes "Testing 123!\n"]⟩,
            ()⟩)) := by
  refine ⟨?_, ?_, rfl⟩
  · intro S r m hfull hdata hw hcap
    have hout := outwriteln_ok m.out m.dev [inputOverflowMsg]
      (by simp [OutputBuf.writeCursor, hdata, catBytes]; omega) hw
    simp only [catBytes_cons, catBytes_nil, List.append_nil, hdata,
      List.nil_append] at hout
    unfold read_input
    simp [hfull, try_print_error, hout]
  · intro S r m rest hspace hreads hdata hw hcap
    have hout := outwriteln_ok m.out { m.dev with reads := rest }
      [inputOverflowMsg]
      (by simp [OutputBuf.writeCursor, hdata, catBytes]; omega) (by simpa using hw)
    simp only [catBytes_cons, catBytes_nil, List.append_nil, hdata,
      List.nil_append] at hout
    unfold read_input read_packet
    simp [hreads, hspace, try_print_error, hout]

/-- C6 witness: the full-buffer case evaluated at a concrete menu whose
4-byte input buffer holds 4 unconsumed bytes, and the read-overflow case at
a concrete scripted device. -/
theorem c6_input_overflow_witness :
    read_input ([] : Router Unit) ⟨4, [9, 9, 9, 9], ⟨64, []⟩, ⟨[], [], []⟩, ()⟩
      = .fine (.ok (), { (⟨4, [9, 9, 9, 9], ⟨64, []⟩, ⟨[], [], []⟩, ()⟩ : MenuS Unit) with
          inBuf := [], out := ⟨64, []⟩,
          dev := ⟨[], [], [inputOverflowMsg ++ [10]]⟩ })
    ∧ read_input ([] : Router Unit)
        ⟨4, [], ⟨64, []⟩, ⟨[.error .BufferOverflow], [], []⟩, ()⟩
      = .fine (.ok (), { (⟨4, [], ⟨64, []⟩, ⟨[.error .BufferOverflow], [], []⟩, ()⟩ : MenuS Unit) with
          inBuf := [], out := ⟨64, []⟩,
          dev := ⟨[], [], [inputOverflowMsg ++ [10]]⟩ }) := by
  refine ⟨?_, ?_⟩
  · exact c6_input_overflow.1 Unit [] ⟨4, [9, 9, 9, 9], ⟨64, []⟩, ⟨[], [], []⟩, ()⟩
      (by decide) rfl rfl (by decide)
  · exact c6_input_overflow.2.1 Unit []
      ⟨4, [], ⟨64, []⟩, ⟨[.error .BufferOverflow], [], []⟩, ()⟩ []
      (by decide) rfl rfl rfl (by decide)

end Picomenu
